import Mathlib

/-!
Shallow embedding of `src/url-extractor.py` (buggedout-1/url-extractor).

The embedding works over `List Char` (ASCII texts); `String` wrappers give
the API-level functions.  The regex `URL_PATTERN` is embedded as a
backtracking matcher that enumerates candidate match lengths in the exact
preference (greedy, leftmost-first) order of Python's `re` engine, so that
the head of the candidate list is the match `re.findall` produces.
-/

namespace UrlExtractor

/-! ### Character classes (ASCII, as used by the source regex) -/

def isAsciiUpper (c : Char) : Bool := 'A' ≤ c && c ≤ 'Z'

def isAsciiLower (c : Char) : Bool := 'a' ≤ c && c ≤ 'z'

def isAsciiAlphaCh (c : Char) : Bool := isAsciiUpper c || isAsciiLower c

def isAsciiDigitCh (c : Char) : Bool := '0' ≤ c && c ≤ '9'

def isAlnum (c : Char) : Bool := isAsciiAlphaCh c || isAsciiDigitCh c

def isAlnumHyphen (c : Char) : Bool := isAlnum c || c == '-'

/-- The character class of the path/query part of `URL_PATTERN`:
`[a-zA-Z0-9._~:/?#\[\]@!$&'()*+,;=%\-]`. -/
def isPathChar (c : Char) : Bool :=
  isAlnum c || c == '.' || c == '_' || c == '~' || c == ':' || c == '/' ||
  c == '?' || c == '#' || c == '[' || c == ']' || c == '@' || c == '!' ||
  c == '$' || c == '&' || c == Char.ofNat 39 || c == '(' || c == ')' ||
  c == '*' || c == '+' || c == ',' || c == ';' || c == '=' || c == '%' ||
  c == '-'

/-- Python `\s` restricted to ASCII: space, tab, newline, carriage return,
vertical tab, form feed. -/
def isPyWhitespace (c : Char) : Bool :=
  c == ' ' || c == '\t' || c == '\n' || c == '\r' ||
  c == Char.ofNat 11 || c == Char.ofNat 12

/-- The class `TRAILING_CHARS = r'[\s\x27"<>);,\]\x7d\\]+'` of characters
stripped from the end of a raw match. -/
def isTrailingChar (c : Char) : Bool :=
  isPyWhitespace c || c == Char.ofNat 39 || c == '"' || c == '<' || c == '>' ||
  c == ')' || c == ';' || c == ',' || c == ']' || c == Char.ofNat 125 ||
  c == '\\'

/-! ### Backtracking regex combinators

A `Matcher` sends a suffix of the text to the list of lengths a pattern
piece can consume, in the order Python's backtracking engine tries them
(greedy first).  The first element of the composite list is the length the
engine's first full match consumes. -/

def Matcher : Type := List Char → List Nat

/-- Length of the maximal prefix run of characters satisfying `p`. -/
def runLen (p : Char → Bool) : List Char → Nat
  | [] => 0
  | c :: cs => if p c then runLen p cs + 1 else 0

/-- Descending range `[hi, hi-1, ..., lo]` (empty when `hi < lo`). -/
def descRange (hi lo : Nat) : List Nat :=
  (List.range (hi + 1 - lo)).map (fun j => hi - j)

def mlit (s : List Char) : Matcher := fun cs =>
  if s.isPrefixOf cs then [s.length] else []

def mchar (p : Char → Bool) : Matcher := fun cs =>
  match cs with
  | c :: _ => if p c then [1] else []
  | [] => []

def mseq (m1 m2 : Matcher) : Matcher := fun cs =>
  (m1 cs).flatMap (fun n => (m2 (cs.drop n)).map (fun k => n + k))

/-- Greedy `(?:X)?` : try `X` first, then the empty match. -/
def mopt (m : Matcher) : Matcher := fun cs => m cs ++ [0]

/-- Greedy `[p]{0,k}` : candidate lengths from `min k (run length)` down to 0. -/
def mclassAtMost (p : Char → Bool) (k : Nat) : Matcher := fun cs =>
  descRange (min k (runLen p cs)) 0

/-- Greedy `[p]{k,}` : candidate lengths from the run length down to `k`. -/
def mclassAtLeast (p : Char → Bool) (k : Nat) : Matcher := fun cs =>
  descRange (runLen p cs) k

/-- Greedy `[p]{lo,hi}`. -/
def mclassRange (p : Char → Bool) (lo hi : Nat) : Matcher := fun cs =>
  descRange (min hi (runLen p cs)) lo

/-- Greedy `[p]*`. -/
def mclassStar (p : Char → Bool) : Matcher := fun cs =>
  descRange (runLen p cs) 0

/-- Greedy `(?:X)*` with fuel bounding the number of repetitions. -/
def mstar (m : Matcher) : Nat → Matcher
  | 0 => fun _ => [0]
  | fuel + 1 => fun cs =>
      ((m cs).filter (fun n => n ≠ 0)).flatMap
        (fun n => (mstar m fuel (cs.drop n)).map (fun k => n + k)) ++ [0]

/-- Greedy `(?:X)+` with fuel. -/
def mplus (m : Matcher) (fuel : Nat) : Matcher := fun cs =>
  ((m cs).filter (fun n => n ≠ 0)).flatMap
    (fun n => (mstar m fuel (cs.drop n)).map (fun k => n + k))

/-! ### The `URL_PATTERN` regex -/

/-- One domain label: `[a-zA-Z0-9](?:[a-zA-Z0-9-]{0,61}[a-zA-Z0-9])?`. -/
def domainLabel : Matcher :=
  mseq (mchar isAlnum)
    (mopt (mseq (mclassAtMost isAlnumHyphen 61) (mchar isAlnum)))

/-- One label followed by a dot: `(?:label\.)`. -/
def labelDot : Matcher := mseq domainLabel (mchar (fun c => c == '.'))

/-- The whole `URL_PATTERN`:
`https?://(?:label\.)+[a-zA-Z]{2,}(?::\d{1,5})?(?:/[path chars]*)?`. -/
def urlPattern (fuel : Nat) : Matcher :=
  mseq (mlit ("http".data))
  (mseq (mopt (mchar (fun c => c == 's')))
  (mseq (mlit ("://".data))
  (mseq (mplus labelDot fuel)
  (mseq (mclassAtLeast isAsciiAlphaCh 2)
  (mseq (mopt (mseq (mchar (fun c => c == ':')) (mclassRange isAsciiDigitCh 1 5)))
        (mopt (mseq (mchar (fun c => c == '/')) (mclassStar isPathChar))))))))

/-- Length of the first (backtracking-order) match of `URL_PATTERN` at the
head of `cs`, if any. -/
def urlMatchFirst (cs : List Char) : Option Nat := (urlPattern cs.length cs).head?

/-- Model of `URL_PATTERN.findall`: scan left to right, take the leftmost match,
continue after it (matches do not overlap). -/
def findallAux : Nat → List Char → List (List Char)
  | 0, _ => []
  | _ + 1, [] => []
  | fuel + 1, c :: rest =>
    match urlMatchFirst (c :: rest) with
    | some n => (c :: rest).take n :: findallAux fuel ((c :: rest).drop n)
    | none => findallAux fuel rest

def findall (cs : List Char) : List (List Char) := findallAux cs.length cs

/-! ### The function `normalize_url` -/

/-- Drop the maximal trailing run of characters satisfying `p`
(the effect of `re.sub(class + r'$', '', url)` and of `str.rstrip`). -/
def dropTrailing (p : Char → Bool) (cs : List Char) : List Char :=
  (cs.reverse.dropWhile p).reverse

/-- Index of the first occurrence of `pat` as a contiguous sublist. -/
def firstSubIdx (pat : List Char) : List Char → Option Nat
  | [] => if pat.isEmpty then some 0 else none
  | c :: rest =>
      if pat.isPrefixOf (c :: rest) then some 0
      else (firstSubIdx pat rest).map (fun i => i + 1)

def containsSub (pat cs : List Char) : Bool := (firstSubIdx pat cs).isSome

/-- The template-substitution opener: the two characters dollar,
open-brace. -/
def templateOpen : List Char := ['$', Char.ofNat 123]

/-- Model of `normalize_url`: strip the trailing `TRAILING_CHARS` run, strip
trailing backslashes, then truncate before the first template opener. -/
def normalize_url_core (url : List Char) : List Char :=
  let u1 := dropTrailing isTrailingChar url
  let u2 := dropTrailing (fun c => c == '\\') u1
  match firstSubIdx templateOpen u2 with
  | some i => u2.take i
  | none => u2

def normalize_url (url : String) : String := ⟨normalize_url_core url.data⟩

/-! ### The function `extract_links_from_js` -/

/-- The `'://'` marker. -/
def schemeMarker : List Char := [':', '/', '/']

/-- Insertion into a duplicate-free list, modelling `set.add` with
first-insertion order. -/
def insertIfAbsent (acc : List (List Char)) (x : List Char) : List (List Char) :=
  if x ∈ acc then acc else acc ++ [x]

/-- The body of the loop of `extract_links_from_js`: normalize the raw
match and keep it when non-empty and containing `'://'`. -/
def extractStep (acc : List (List Char)) (url : List Char) : List (List Char) :=
  let clean := normalize_url_core url
  if (!clean.isEmpty) && containsSub schemeMarker clean then
    insertIfAbsent acc clean
  else acc

/-- Model of `extract_links_from_js`: find all raw matches, normalize each, keep the
non-empty ones containing `'://'`, collapsing duplicates (set semantics). -/
def extractCore (js : List Char) : List (List Char) :=
  (findall js).foldl extractStep []

def extract_links_from_js (js : String) : List String :=
  (extractCore js.data).map (fun l => ⟨l⟩)

/-! ### String helpers (structural, ASCII semantics of the Python ops) -/

/-- ASCII lower-casing of one character (Python `str.lower` on ASCII). -/
def asciiToLower (c : Char) : Char :=
  if isAsciiUpper c then Char.ofNat (c.toNat + 32) else c

/-- Python `str.lower()` (ASCII). -/
def lowerStr (s : String) : String := String.mk (s.data.map asciiToLower)

/-- Python `s.endswith(t)`. -/
def strEndsWith (s t : String) : Bool := t.data.isSuffixOf s.data

/-- Membership `c in s` for a single character. -/
def strContainsChar (s : String) (c : Char) : Bool := s.data.contains c

/-- Python slicing `s[:n]`. -/
def pyTake (s : String) (n : Nat) : String := String.mk (s.data.take n)

/-- Python `s.split(c)` (always non-empty; empty string gives `[""]`). -/
def splitOnCharAux (c : Char) : List Char -> List Char -> List (List Char)
  | [], acc => [acc.reverse]
  | x :: xs, acc =>
      if x == c then acc.reverse :: splitOnCharAux c xs []
      else splitOnCharAux c xs (x :: acc)

def splitOnChar (c : Char) (s : String) : List String :=
  (splitOnCharAux c s.data []).map String.mk

/-- Python `sep.join(parts)` for a one-character separator. -/
def joinWith (c : Char) (parts : List String) : String :=
  String.mk (List.intercalate [c] (parts.map String.data))

/-! ### The library function `urllib.parse.urlparse` (the parts the source uses)

Model of CPython's `urlsplit`/`urlparse` (ASCII behaviour): leading
C0-control/space stripping, removal of tab/CR/LF, scheme split, netloc up
to the first of `/?#`, fragment and query splits, and the params split of
`urlparse`. The stdlib's `ValueError` guards for bracketed hosts are not
modelled (the model is total). -/

structure ParseResult where
  scheme : String
  netloc : String
  path : String
  params : String
  query : String
  fragment : String
  deriving Repr, DecidableEq

def isC0OrSpace (c : Char) : Bool := c.toNat ≤ 32

def isSchemeChar (c : Char) : Bool := isAlnum c || c == '+' || c == '-' || c == '.'

/-- Last index at which `p` holds. -/
def rfindIdx (p : Char → Bool) (cs : List Char) : Option Nat :=
  match (cs.reverse.findIdx? p) with
  | some j => some (cs.length - 1 - j)
  | none => none

/-- Python `url.find(c, start)`. -/
def findFrom (p : Char → Bool) (start : Nat) (cs : List Char) : Option Nat :=
  ((cs.drop start).findIdx? p).map (fun i => i + start)

def isNetlocDelim (c : Char) : Bool := c == '/' || c == '?' || c == '#'

/-- Model of `urlsplit` on character lists: returns (scheme, netloc, rest-url,
query, fragment). -/
def urlsplitCore (cs0 : List Char) : List Char × List Char × List Char × List Char × List Char :=
  let cs1 := cs0.dropWhile isC0OrSpace
  let cs := cs1.filter (fun c => !(c == '\t' || c == '\r' || c == '\n'))
  let (scheme, u1) :=
    match cs.findIdx? (fun c => c == ':') with
    | some i =>
        let startOk : Bool :=
          match cs.head? with
          | some c => decide (c.toNat ≤ 127) && isAsciiAlphaCh c
          | none => false
        if 0 < i ∧ startOk = true ∧ (cs.take i).all isSchemeChar = true then
          ((cs.take i).map asciiToLower, cs.drop (i + 1))
        else ([], cs)
    | none => ([], cs)
  let (netloc, u2) :=
    if ['/', '/'].isPrefixOf u1 then
      ((u1.drop 2).takeWhile (fun c => !isNetlocDelim c),
       (u1.drop 2).dropWhile (fun c => !isNetlocDelim c))
    else ([], u1)
  let (u3, fragment) :=
    if u2.contains '#' then
      (u2.takeWhile (fun c => c ≠ '#'), (u2.dropWhile (fun c => c ≠ '#')).drop 1)
    else (u2, [])
  let (u4, query) :=
    if u3.contains '?' then
      (u3.takeWhile (fun c => c ≠ '?'), (u3.dropWhile (fun c => c ≠ '?')).drop 1)
    else (u3, [])
  (scheme, netloc, u4, query, fragment)

/-- Model of `_splitparams`. -/
def splitparamsCore (cs : List Char) : List Char × List Char :=
  if cs.contains '/' then
    match rfindIdx (fun c => c == '/') cs with
    | some r =>
        match findFrom (fun c => c == ';') r cs with
        | some i => (cs.take i, cs.drop (i + 1))
        | none => (cs, [])
    | none => (cs, [])
  else
    match cs.findIdx? (fun c => c == ';') with
    | some i => (cs.take i, cs.drop (i + 1))
    | none => (cs, [])

/-- Schemes for which `urlparse` splits params (`uses_params`). -/
def usesParams : List (List Char) :=
  ["", "ftp", "hdl", "prospero", "http", "imap", "https", "shttp", "rtsp",
   "rtsps", "rtspu", "sip", "sips", "mms", "sftp", "tel"].map String.data

/-- Model of `urllib.parse.urlparse`. -/
def urlparse (url : String) : ParseResult :=
  let (scheme, netloc, u, query, fragment) := urlsplitCore url.data
  let (path, params) :=
    if scheme ∈ usesParams ∧ u.contains ';' = true then splitparamsCore u
    else (u, [])
  ⟨⟨scheme⟩, ⟨netloc⟩, ⟨path⟩, ⟨params⟩, ⟨query⟩, ⟨fragment⟩⟩

/-! ### The functions `get_url_extension`, `get_base_domain`, `filter_urls` -/

/-- The characters after the last dot (`path.rsplit('.', 1)[-1]`). -/
def afterLastDot (cs : List Char) : List Char :=
  (cs.reverse.takeWhile (fun c => c ≠ '.')).reverse

/-- Model of `get_url_extension`: extension of the parsed path, lower-cased, empty
when the path has no dot. -/
def get_url_extension (url : String) : String :=
  let path := (urlparse url).path
  if strContainsChar path '.' then
    String.mk ((afterLastDot path.data).map asciiToLower)
  else ""

def shortSecondLabels : List String := ["co", "com", "org", "net", "gov", "edu"]

/-- Model of `get_base_domain`: last two labels, or last three when the
second-to-last label is a known short TLD label. -/
def get_base_domain (netloc : String) : String :=
  let parts := splitOnChar '.' netloc
  if 2 ≤ parts.length then
    if 3 ≤ parts.length ∧ parts.getD (parts.length - 2) "" ∈ shortSecondLabels then
      joinWith '.' (parts.drop (parts.length - 3))
    else
      joinWith '.' (parts.drop (parts.length - 2))
  else netloc

/-- The scope test of `filter_urls` on one URL's lowered netloc. -/
def scopePass (netloc_lower : String) (scope base_scope : String)
    (include_subdomains : Bool) : Bool :=
  if include_subdomains then
    netloc_lower == base_scope || strEndsWith netloc_lower ("." ++ base_scope)
  else
    netloc_lower == lowerStr scope

/-- Model of `filter_urls`: keep URLs passing the scope test and the optional
`contain_equals` / `js_json_only` refinements (the source's `continue`
chain, as a conjunctive filter). -/
def filter_urls (urls : List String) (scope : String)
    (contain_equals js_json_only include_subdomains : Bool) : List String :=
  let base_scope := if include_subdomains then get_base_domain scope else scope
  urls.filter (fun url =>
    scopePass (lowerStr (urlparse url).netloc) scope base_scope include_subdomains
    && (!contain_equals || strContainsChar url '=')
    && (!js_json_only ||
        (get_url_extension url == "js" || get_url_extension url == "json")))

/-! ### Data classes -/

/-- The `Config` dataclass (the `delay` float is modelled as a natural
number of seconds; no claim depends on it). -/
structure Config where
  input_file : Option String
  output_file : String
  single_url : Option String
  silent : Bool
  contain_equals : Bool
  js_json_only : Bool
  timeout : Nat
  delay : Nat
  threads : Nat
  retries : Nat
  user_agent : String
  proxy : Option String
  include_subdomains : Bool
  output_format : String
  no_color : Bool
  verbose : Bool
  deriving Repr, DecidableEq

/-- The `ExtractionResult` dataclass. -/
structure ExtractionResult where
  source_url : String
  extracted_urls : List String
  error : Option String
  status_code : Option Nat
  deriving Repr, DecidableEq

/-- Python truthiness of an `Optional[str]`: `None` and `""` are falsy. -/
def pyTruthy : Option String → Bool
  | none => false
  | some s => !(s == "")

/-! ### The function `fetch_url`

The network is modelled by a transport oracle giving the outcome of each
attempt (index 0, 1, ...).  `Outcome.success` is a response
`raise_for_status` accepts; `Outcome.httpError` is a response it rejects
(4xx/5xx); the other constructors are the exceptions the source catches
and retries. -/

inductive Outcome where
  | success (body : String) (status : Nat)
  | timeout
  | sslError (msg : String)
  | connError (msg : String)
  | httpError (status : Nat)
  | reqError (msg : String)
  deriving Repr, DecidableEq

/-- Outcomes the retry loop retries (everything except a delivered
response). -/
def isTransient : Outcome → Bool
  | .success _ _ => false
  | .httpError _ => false
  | _ => true

/-- The `last_error` string the source builds for each except-branch. -/
def failureMsg (timeout : Nat) : Outcome → String
  | .timeout => "Timeout after " ++ toString timeout ++ "s"
  | .sslError m => "SSL error: " ++ pyTake m 100
  | .connError m => "Connection error: " ++ pyTake m 100
  | .reqError m => "Request failed: " ++ pyTake m 100
  | .httpError st => "HTTP " ++ toString st
  | .success _ _ => ""

/-- The tuple `fetch_url` returns, together with the number of attempts
made and of 1-second sleeps performed (observable effects of the loop). -/
structure FetchResult where
  content : Option String
  status_code : Option Nat
  error : Option String
  attempts : Nat
  sleeps : Nat
  deriving Repr, DecidableEq

/-- The `for attempt in range(retries + 1)` loop: `r` is the number of
remaining iterations, `a` the current attempt index, `le` the current
`last_error`, `sl` the sleeps performed so far. -/
def fetchGo (transport : Nat → Outcome) (timeout retries : Nat) :
    Nat → Nat → Option String → Nat → FetchResult
  | 0, a, le, sl => ⟨none, none, le, a, sl⟩
  | r + 1, a, _le, sl =>
    match transport a with
    | .success body st => ⟨some body, some st, none, a + 1, sl⟩
    | .httpError st => ⟨none, some st, some ("HTTP " ++ toString st), a + 1, sl⟩
    | o =>
        let e := failureMsg timeout o
        if a < retries then fetchGo transport timeout retries r (a + 1) (some e) (sl + 1)
        else fetchGo transport timeout retries r (a + 1) (some e) sl

/-- Model of `fetch_url(url, timeout, user_agent, proxy, retries)`: the request
parameters shape headers/proxies only; the network behaviour is the
transport oracle. -/
def fetch_url (transport : Nat → Outcome) (url : String) (timeout : Nat)
    (user_agent : String) (proxy : Option String) (retries : Nat) : FetchResult :=
  fetchGo transport timeout retries (retries + 1) 0 none 0

/-! ### The function `process_single_url` and the sequential orchestration -/

/-- Model of `process_single_url`: fetch, record status code, record a fetch error
or an empty body as the per-source error, else extract and filter with the
source URL's own netloc as scope. -/
def process_single_url (transport : Nat → Outcome) (js_url : String)
    (config : Config) : ExtractionResult :=
  let f := fetch_url transport js_url config.timeout config.user_agent
    config.proxy config.retries
  if pyTruthy f.error then
    ⟨js_url, [], f.error, f.status_code⟩
  else if !pyTruthy f.content then
    ⟨js_url, [], some "Empty response", f.status_code⟩
  else
    let content := f.content.getD ""
    let urls := extract_links_from_js content
    let scope := (urlparse js_url).netloc
    ⟨js_url,
     filter_urls urls scope config.contain_equals config.js_json_only
       config.include_subdomains,
     none, f.status_code⟩

/-- The sequential branch of `run_extraction` (logging and delays have no
effect on the result list): one independent result per source, each source
fetched through its own transport. -/
def run_sequential (transport : String → Nat → Outcome) (config : Config)
    (js_urls : List String) : List ExtractionResult :=
  js_urls.map (fun u => process_single_url (transport u) u config)

/-! ### The function `write_results_txt` -/

/-- Python `str.strip()` (ASCII whitespace). -/
def pyStrip (s : String) : String :=
  ⟨((s.data.dropWhile isPyWhitespace).reverse.dropWhile isPyWhitespace).reverse⟩

/-- The union of `extracted_urls` across results (`all_urls`). -/
def allUrlsSet (results : List ExtractionResult) : Finset String :=
  results.foldl (fun s r => s ∪ r.extracted_urls.toFinset) ∅

/-- Reading an existing output file: the set of stripped non-blank lines. -/
def existingUrlsSet (lines : List String) : Finset String :=
  ((lines.map pyStrip).filter (fun l => l ≠ "")).toFinset

/-- The existing-URL set of an output file (absent or unreadable = empty,
non-fatal). -/
def existingOf : Option (List String) → Finset String
  | none => ∅
  | some lines => existingUrlsSet lines

def fileLines : Option (List String) → List String
  | none => []
  | some ls => ls

/-- Model of `write_results_txt`: the file is a list of lines (`none` = absent).
New URLs are the union minus the existing lines; they are appended sorted;
the count of new URLs is returned. -/
def write_results_txt (results : List ExtractionResult)
    (file : Option (List String)) (deduplicate : Bool) :
    Option (List String) × Nat :=
  let all_urls := allUrlsSet results
  let existing := existingOf file
  let new_urls := if deduplicate then all_urls \ existing else all_urls
  let file2 :=
    if new_urls ≠ ∅ then some (fileLines file ++ new_urls.sort (· ≤ ·))
    else file
  (file2, new_urls.card)

/-! ### The function `write_results_json` -/

/-- One element of the `results` array; `error = none` means the key is
absent from the object. -/
structure ResultEntry where
  source : String
  status_code : Option Nat
  urls_found : Nat
  urls : List String
  error : Option String
  deriving Repr, DecidableEq

/-- The per-result dict built in the loop (`error` key only when truthy). -/
def entryOf (r : ExtractionResult) : ResultEntry :=
  ⟨r.source_url, r.status_code, r.extracted_urls.length, r.extracted_urls,
   if pyTruthy r.error then r.error else none⟩

/-- The structured document `write_results_json` serializes. -/
structure JsonOutput where
  total_sources : Nat
  successful : Nat
  failed : Nat
  total_urls_found : Nat
  results : List ResultEntry
  unique_urls : List String
  unique_url_count : Nat
  deriving Repr, DecidableEq

/-- Model of `write_results_json`: the document (which overwrites the output file)
and the returned unique-URL count. -/
def write_results_json (results : List ExtractionResult) : JsonOutput × Nat :=
  let all_urls := allUrlsSet results
  (⟨results.length,
    (results.filter (fun r => !pyTruthy r.error)).length,
    (results.filter (fun r => pyTruthy r.error)).length,
    (results.map (fun r => r.extracted_urls.length)).sum,
    results.map entryOf,
    all_urls.sort (· ≤ ·),
    all_urls.card⟩,
   all_urls.card)

/-! ## Lemmas about the retry loop -/

lemma fetchGo_step_success {t : Nat → Outcome} {timeout retries r a : Nat}
    {le : Option String} {sl : Nat} {body : String} {st : Nat}
    (h : t a = Outcome.success body st) :
    fetchGo t timeout retries (r + 1) a le sl =
      ⟨some body, some st, none, a + 1, sl⟩ := by
  simp [fetchGo, h]

lemma fetchGo_step_http {t : Nat → Outcome} {timeout retries r a : Nat}
    {le : Option String} {sl : Nat} {st : Nat}
    (h : t a = Outcome.httpError st) :
    fetchGo t timeout retries (r + 1) a le sl =
      ⟨none, some st, some ("HTTP " ++ toString st), a + 1, sl⟩ := by
  simp [fetchGo, h]

lemma fetchGo_step_transient {t : Nat → Outcome} {timeout retries r a : Nat}
    {le : Option String} {sl : Nat}
    (h : isTransient (t a) = true) (ha : a < retries) :
    fetchGo t timeout retries (r + 1) a le sl =
      fetchGo t timeout retries r (a + 1) (some (failureMsg timeout (t a))) (sl + 1) := by
  cases h2 : t a <;> rw [h2] at h <;> simp [isTransient] at h <;>
    simp [fetchGo, h2, ha]

lemma fetchGo_step_last {t : Nat → Outcome} {timeout retries r a : Nat}
    {le : Option String} {sl : Nat}
    (h : isTransient (t a) = true) (ha : ¬ a < retries) :
    fetchGo t timeout retries (r + 1) a le sl =
      fetchGo t timeout retries r (a + 1) (some (failureMsg timeout (t a))) sl := by
  cases h2 : t a <;> rw [h2] at h <;> simp [isTransient] at h <;>
    simp [fetchGo, h2, ha]

lemma fetchGo_attempts_le (t : Nat → Outcome) (timeout retries : Nat) :
    ∀ (r a : Nat) (le : Option String) (sl : Nat),
      (fetchGo t timeout retries r a le sl).attempts ≤ a + r := by
  intro r
  induction r with
  | zero =>
    intro a le sl
    simp [fetchGo]
  | succ n ih =>
    intro a le sl
    cases h : t a with
    | success body st => rw [fetchGo_step_success h]; simp
    | httpError st => rw [fetchGo_step_http h]; simp
    | timeout =>
        have htr : isTransient (t a) = true := by rw [h]; rfl
        by_cases ha : a < retries
        · rw [fetchGo_step_transient htr ha]
          have := ih (a + 1) (some (failureMsg timeout (t a))) (sl + 1)
          omega
        · rw [fetchGo_step_last htr ha]
          have := ih (a + 1) (some (failureMsg timeout (t a))) sl
          omega
    | sslError m =>
        have htr : isTransient (t a) = true := by rw [h]; rfl
        by_cases ha : a < retries
        · rw [fetchGo_step_transient htr ha]
          have := ih (a + 1) (some (failureMsg timeout (t a))) (sl + 1)
          omega
        · rw [fetchGo_step_last htr ha]
          have := ih (a + 1) (some (failureMsg timeout (t a))) sl
          omega
    | connError m =>
        have htr : isTransient (t a) = true := by rw [h]; rfl
        by_cases ha : a < retries
        · rw [fetchGo_step_transient htr ha]
          have := ih (a + 1) (some (failureMsg timeout (t a))) (sl + 1)
          omega
        · rw [fetchGo_step_last htr ha]
          have := ih (a + 1) (some (failureMsg timeout (t a))) sl
          omega
    | reqError m =>
        have htr : isTransient (t a) = true := by rw [h]; rfl
        by_cases ha : a < retries
        · rw [fetchGo_step_transient htr ha]
          have := ih (a + 1) (some (failureMsg timeout (t a))) (sl + 1)
          omega
        · rw [fetchGo_step_last htr ha]
          have := ih (a + 1) (some (failureMsg timeout (t a))) sl
          omega

lemma fetchGo_success_after (t : Nat → Outcome) (timeout retries : Nat)
    (body : String) (st : Nat) :
    ∀ (k a : Nat) (le : Option String) (sl : Nat),
      (∀ i, i < k → isTransient (t (a + i)) = true) →
      t (a + k) = Outcome.success body st →
      a + k ≤ retries →
      fetchGo t timeout retries (retries + 1 - a) a le sl =
        ⟨some body, some st, none, a + k + 1, sl + k⟩ := by
  intro k
  induction k with
  | zero =>
    intro a le sl _ hsucc hle
    have hr : retries + 1 - a = (retries - a) + 1 := by omega
    rw [hr, fetchGo_step_success (by simpa using hsucc)]
    simp
  | succ n ih =>
    intro a le sl htr hsucc hle
    have h0 : isTransient (t a) = true := by
      simpa using htr 0 (Nat.succ_pos n)
    have ha : a < retries := by omega
    have hr : retries + 1 - a = (retries - a) + 1 := by omega
    rw [hr, fetchGo_step_transient h0 ha]
    have htr2 : ∀ i, i < n → isTransient (t (a + 1 + i)) = true := by
      intro i hi
      have := htr (i + 1) (by omega)
      rwa [show a + (i + 1) = a + 1 + i by omega] at this
    have hsucc2 : t (a + 1 + n) = Outcome.success body st := by
      rwa [show a + (n + 1) = a + 1 + n by omega] at hsucc
    have := ih (a + 1) (some (failureMsg timeout (t a))) (sl + 1) htr2 hsucc2 (by omega)
    rw [show retries - a = retries + 1 - (a + 1) by omega, this]
    exact congrArg₂ (fun x y => FetchResult.mk (some body) (some st) none x y)
      (by omega) (by omega)

lemma fetchGo_exhaust (t : Nat → Outcome) (timeout retries : Nat) :
    ∀ (r a : Nat) (le : Option String) (sl : Nat),
      a + r = retries + 1 → a ≤ retries →
      (∀ i, a ≤ i → i ≤ retries → isTransient (t i) = true) →
      fetchGo t timeout retries r a le sl =
        ⟨none, none, some (failureMsg timeout (t retries)), retries + 1,
         sl + (retries - a)⟩ := by
  intro r
  induction r with
  | zero =>
    intro a le sl hr hle _
    omega
  | succ n ih =>
    intro a le sl hr hle htr
    have h0 : isTransient (t a) = true := htr a le_rfl hle
    by_cases ha : a < retries
    · rw [fetchGo_step_transient h0 ha]
      have := ih (a + 1) (some (failureMsg timeout (t a))) (sl + 1)
        (by omega) (by omega) (fun i h1 h2 => htr i (by omega) h2)
      rw [this]
      exact congrArg₂
        (fun x y => FetchResult.mk none none
          (some (failureMsg timeout (t retries))) x y) rfl (by omega)
    · have haeq : a = retries := by omega
      have hn : n = 0 := by omega
      rw [fetchGo_step_last h0 ha, hn]
      simp [fetchGo, haeq]

/-- C2: attempts never exceed `retries + 1`; `k ≤ retries` transient
failures followed by a delivered response give the body and status with no
error after `k + 1` attempts and `k` one-second sleeps; transient failures
on every attempt exhaust all `retries + 1` attempts (with `retries`
sleeps) and return no content, no status code, and the descriptive message
of the last failure. -/
theorem fetch_url_retry_policy
    (url user_agent : String) (proxy : Option String)
    (timeout retries k : Nat) (t1 t2 : Nat → Outcome)
    (body : String) (st : Nat)
    (h1 : ∀ i, i < k → isTransient (t1 i) = true)
    (h2 : t1 k = Outcome.success body st)
    (h3 : k ≤ retries)
    (h4 : ∀ i, i ≤ retries → isTransient (t2 i) = true) :
    (∀ t : Nat → Outcome,
       (fetch_url t url timeout user_agent proxy retries).attempts ≤ retries + 1)
    ∧ fetch_url t1 url timeout user_agent proxy retries =
        ⟨some body, some st, none, k + 1, k⟩
    ∧ fetch_url t2 url timeout user_agent proxy retries =
        ⟨none, none, some (failureMsg timeout (t2 retries)), retries + 1, retries⟩ := by
  refine ⟨fun t => ?_, ?_, ?_⟩
  · have := fetchGo_attempts_le t timeout retries (retries + 1) 0 none 0
    simpa [fetch_url] using this
  · have := fetchGo_success_after t1 timeout retries body st k 0 none 0
      (by simpa using h1) (by simpa using h2) (by simpa using h3)
    simpa [fetch_url] using this
  · have := fetchGo_exhaust t2 timeout retries (retries + 1) 0 none 0
      (by omega) (by omega) (fun i _ h2 => h4 i h2)
    simpa [fetch_url] using this

def tW1 : Nat → Outcome :=
  fun i => if i < 2 then Outcome.timeout else Outcome.success "B" 200

def tW2 : Nat → Outcome := fun _ => Outcome.connError "boom"

/-- Witness for the C2 theorem at a concrete transport: two timeouts then
success with `retries = 2`, and a transport that always fails. -/
theorem fetch_url_retry_policy_witness :
    (fetch_url tW1 "https://e.com/a.js" 10 "UA" none 2).attempts ≤ 3
    ∧ fetch_url tW1 "https://e.com/a.js" 10 "UA" none 2 =
        ⟨some "B", some 200, none, 3, 2⟩
    ∧ fetch_url tW2 "https://e.com/a.js" 10 "UA" none 2 =
        ⟨none, none, some (failureMsg 10 (tW2 2)), 3, 2⟩ := by
  have h := fetch_url_retry_policy "https://e.com/a.js" "UA" none 10 2 2 tW1 tW2
    "B" 200 (fun i hi => by simp [tW1, hi, isTransient]) (by simp [tW1]) (by decide)
    (fun i _ => by simp [tW2, isTransient])
  exact ⟨h.1 tW1, h.2.1, h.2.2⟩

/-- C3: an HTTP error status on the first attempt returns immediately
after that single attempt (no retries, no sleeps), with no content, the
status code, and the `HTTP <status>` error. -/
theorem fetch_url_http_error_no_retry
    (url user_agent : String) (proxy : Option String)
    (timeout retries st : Nat) (t : Nat → Outcome)
    (h : t 0 = Outcome.httpError st) (h4 : 400 ≤ st) (h6 : st < 600) :
    fetch_url t url timeout user_agent proxy retries =
      ⟨none, some st, some ("HTTP " ++ toString st), 1, 0⟩ := by
  rw [fetch_url, fetchGo_step_http h]

/-- Witness for the C3 theorem: a transport answering 404 with
`retries = 5` still makes exactly one attempt. -/
theorem fetch_url_http_error_no_retry_witness :
    fetch_url (fun _ => Outcome.httpError 404) "https://e.com/a.js" 10 "UA" none 5 =
      ⟨none, some 404, some ("HTTP " ++ toString 404), 1, 0⟩ :=
  fetch_url_http_error_no_retry "https://e.com/a.js" "UA" none 10 5 404
    (fun _ => Outcome.httpError 404) rfl (by decide) (by decide)

/-! ## The matcher on the spec's example texts -/

/-- The apostrophe character. -/
def apos : Char := Char.ofNat 39

/-- The text `var u = "https://ex.com/a');"` (apostrophe spelled out). -/
def exampleTextQuoted : String :=
  "var u = \"https://ex.com/a" ++ ⟨[apos]⟩ ++ ");\""

/-- The raw regex match inside `exampleTextQuoted`. -/
def exampleMatchQuoted : String := "https://ex.com/a" ++ ⟨[apos]⟩ ++ ");"

/-- The text `` `https://ex.com/${id}` `` (a template literal). -/
def exampleTextTemplate : String := "`https://ex.com/$\x7bid\x7d`"

/-- C1 counterexample: on the template-literal text the extracted set is
exactly `https://ex.com/$` — the regex match stops before the open brace,
which is not a path character, so the matched text never contains the
`${` opener and the truncation branch of `normalize_url` cannot fire.  The
claimed value `https://ex.com/` is not extracted. -/
theorem extract_template_literal_counterexample :
    extract_links_from_js exampleTextTemplate = ["https://ex.com/$"]
    ∧ "https://ex.com/" ∉ extract_links_from_js exampleTextTemplate := by
  constructor
  · rfl
  · decide

/-- C1 (amended): the first example behaves as claimed
(`"https://ex.com/a');"` yields `https://ex.com/a`); the template-literal
example yields `https://ex.com/$` for that occurrence; `normalize_url`
itself — given a string that does contain `${` — truncates at the opener
as the claim describes, but such a string never reaches it from the
matcher. -/
theorem matcher_normalization_amended :
    extract_links_from_js exampleTextQuoted = ["https://ex.com/a"]
    ∧ extract_links_from_js exampleTextTemplate = ["https://ex.com/$"]
    ∧ normalize_url exampleMatchQuoted = "https://ex.com/a"
    ∧ normalize_url "https://ex.com/$\x7bid\x7d" = "https://ex.com/" := by
  refine ⟨by rfl, by rfl, by rfl, by rfl⟩

/-! ## Scope filtering -/

lemma mem_filter_urls {urls : List String} {scope url : String}
    {ce jj sub : Bool} :
    url ∈ filter_urls urls scope ce jj sub ↔
      url ∈ urls ∧
        (scopePass (lowerStr (urlparse url).netloc) scope
            (if sub then get_base_domain scope else scope) sub
          && (!ce || strContainsChar url '=')
          && (!jj || (get_url_extension url == "js"
                      || get_url_extension url == "json"))) = true := by
  simp [filter_urls, List.mem_filter]

/-- C4: without subdomain inclusion a URL passes the host test exactly
when its (lower-cased) netloc equals the lower-cased scope host; with
subdomain inclusion exactly when its netloc equals the scope's base domain
or ends with `.` + base domain; plus the spec's concrete examples. -/
theorem scope_filter_host_membership :
    (∀ (urls : List String) (scope url : String),
       url ∈ filter_urls urls scope false false false ↔
         url ∈ urls ∧ lowerStr (urlparse url).netloc = lowerStr scope)
    ∧ (∀ (urls : List String) (scope url : String),
       url ∈ filter_urls urls scope false false true ↔
         url ∈ urls ∧
           (lowerStr (urlparse url).netloc = get_base_domain scope ∨
            strEndsWith (lowerStr (urlparse url).netloc)
              ("." ++ get_base_domain scope) = true))
    ∧ get_base_domain "api.example.com" = "example.com"
    ∧ filter_urls ["https://api.example.com/x"] "api.example.com"
        false false false = ["https://api.example.com/x"]
    ∧ filter_urls ["https://api.example.com/x"] "example.com"
        false false false = []
    ∧ filter_urls
        ["https://example.com/a", "https://other.example.com/b",
         "https://example.org/c"] "api.example.com" false false true =
        ["https://example.com/a", "https://other.example.com/b"] := by
  refine ⟨?_, ?_, by decide, by decide, by decide, by decide⟩
  · intro urls scope url
    rw [mem_filter_urls]
    simp [scopePass]
  · intro urls scope url
    rw [mem_filter_urls]
    simp [scopePass]

/-- C6: the refinements are conjunctive over scope-passing URLs — a URL is
in the output exactly when it is in the input, passes the host test, has a
literal `=` when `contain_equals` is set, and has extension `js`/`json`
when `js_json_only` is set; plus the spec's concrete examples. -/
theorem refinement_filters_conjunctive :
    (∀ (urls : List String) (scope url : String) (ce jj sub : Bool),
       url ∈ filter_urls urls scope ce jj sub ↔
         url ∈ urls
         ∧ scopePass (lowerStr (urlparse url).netloc) scope
             (if sub then get_base_domain scope else scope) sub = true
         ∧ (ce = true → strContainsChar url '=' = true)
         ∧ (jj = true →
              (get_url_extension url = "js" ∨ get_url_extension url = "json")))
    ∧ filter_urls ["https://x.com/a", "https://x.com/a?x=1"] "x.com"
        true false false = ["https://x.com/a?x=1"]
    ∧ filter_urls
        ["https://x.com/a.js", "https://x.com/b.json?v=2", "https://x.com/c.png"]
        "x.com" false true false =
        ["https://x.com/a.js", "https://x.com/b.json?v=2"] := by
  refine ⟨?_, by decide, by decide⟩
  intro urls scope url ce jj sub
  rw [mem_filter_urls]
  cases ce <;> cases jj <;> simp [and_assoc]

/-- Witness for the C6 theorem: the membership characterization applied at
a concrete URL list, plus the concrete example conjuncts. -/
theorem refinement_filters_conjunctive_witness :
    ("https://x.com/a?x=1" ∈
        filter_urls ["https://x.com/a", "https://x.com/a?x=1"] "x.com"
          true false false ↔
      "https://x.com/a?x=1" ∈ ["https://x.com/a", "https://x.com/a?x=1"]
      ∧ scopePass (lowerStr (urlparse "https://x.com/a?x=1").netloc) "x.com"
          (if false then get_base_domain "x.com" else "x.com") false = true
      ∧ (true = true → strContainsChar "https://x.com/a?x=1" '=' = true)
      ∧ (false = true →
           (get_url_extension "https://x.com/a?x=1" = "js" ∨
            get_url_extension "https://x.com/a?x=1" = "json")))
    ∧ filter_urls ["https://x.com/a", "https://x.com/a?x=1"] "x.com"
        true false false = ["https://x.com/a?x=1"] := by
  have h := refinement_filters_conjunctive
  exact ⟨h.1 ["https://x.com/a", "https://x.com/a?x=1"] "x.com"
    "https://x.com/a?x=1" true false false, h.2.1⟩

/-! ## Set semantics of the matcher -/

lemma foldl_extractStep_invariant :
    ∀ (l : List (List Char)) (acc : List (List Char)),
      acc.Nodup →
      (∀ x ∈ acc, x ≠ [] ∧ containsSub schemeMarker x = true) →
      ((l.foldl extractStep acc).Nodup ∧
       ∀ x ∈ l.foldl extractStep acc,
         x ≠ [] ∧ containsSub schemeMarker x = true) := by
  intro l
  induction l with
  | nil => intro acc h1 h2; exact ⟨h1, h2⟩
  | cons u rest ih =>
    intro acc h1 h2
    simp only [List.foldl_cons]
    by_cases hc : ((!(normalize_url_core u).isEmpty)
        && containsSub schemeMarker (normalize_url_core u)) = true
    · have hstep : extractStep acc u = insertIfAbsent acc (normalize_url_core u) := by
        simp [extractStep, hc]
      rw [hstep]
      have hc2 := hc
      simp only [Bool.and_eq_true] at hc2
      obtain ⟨hne, hmark⟩ := hc2
      have hne2 : normalize_url_core u ≠ [] := by
        simpa using hne
      by_cases hm : normalize_url_core u ∈ acc
      · have : insertIfAbsent acc (normalize_url_core u) = acc := by
          simp [insertIfAbsent, hm]
        rw [this]; exact ih acc h1 h2
      · have : insertIfAbsent acc (normalize_url_core u) =
            acc ++ [normalize_url_core u] := by
          simp [insertIfAbsent, hm]
        rw [this]
        apply ih
        · simp [List.nodup_append, h1, hm]
        · intro x hx
          rcases List.mem_append.mp hx with h | h
          · exact h2 x h
          · rcases List.mem_singleton.mp h with rfl
            exact ⟨hne2, hmark⟩
    · have hstep : extractStep acc u = acc := by
        simp only [extractStep]
        rw [if_neg hc]
      rw [hstep]; exact ih acc h1 h2

/-- C7: the matcher's output is a set — no duplicates, no empty string,
every element contains the `://` marker — and on a text with two distinct
well-formed URLs (one duplicated) it is exactly those two URLs. -/
theorem matcher_set_semantics :
    (∀ js : String, (extract_links_from_js js).Nodup)
    ∧ (∀ (js u : String), u ∈ extract_links_from_js js →
         u ≠ "" ∧ containsSub schemeMarker u.data = true)
    ∧ (extract_links_from_js
         "x https://a.com/p x https://a.com/p y https://b.org/q2").toFinset =
        {"https://a.com/p", "https://b.org/q2"} := by
  refine ⟨?_, ?_, by decide⟩
  · intro js
    have h := foldl_extractStep_invariant (findall js.data) []
      List.nodup_nil (by simp)
    exact h.1.map (fun a b hab => congrArg String.data hab)
  · intro js u hu
    rcases List.mem_map.mp hu with ⟨x, hx, rfl⟩
    have h := (foldl_extractStep_invariant (findall js.data) []
      List.nodup_nil (by simp)).2 x hx
    refine ⟨fun heq => h.1 ?_, h.2⟩
    exact congrArg String.data heq

/-- Witness for the C7 theorem: the set-semantics facts instantiated on
the concrete duplicated-URL text. -/
theorem matcher_set_semantics_witness :
    (extract_links_from_js
       "x https://a.com/p x https://a.com/p y https://b.org/q2").Nodup
    ∧ (extract_links_from_js
         "x https://a.com/p x https://a.com/p y https://b.org/q2").toFinset =
        {"https://a.com/p", "https://b.org/q2"} :=
  ⟨matcher_set_semantics.1 _, matcher_set_semantics.2.2⟩

/-! ## Text-mode writing -/

lemma mem_foldl_union (l : List ExtractionResult) :
    ∀ (s : Finset String) (u : String),
      u ∈ l.foldl (fun s r => s ∪ r.extracted_urls.toFinset) s ↔
        u ∈ s ∨ ∃ r ∈ l, u ∈ r.extracted_urls := by
  induction l with
  | nil => intro s u; simp
  | cons a l ih =>
    intro s u
    simp only [List.foldl_cons]
    rw [ih]
    simp [or_assoc]

lemma mem_allUrlsSet {results : List ExtractionResult} {u : String} :
    u ∈ allUrlsSet results ↔ ∃ r ∈ results, u ∈ r.extracted_urls := by
  rw [allUrlsSet, mem_foldl_union]
  simp

lemma mem_existingUrlsSet {lines : List String} {u : String} :
    u ∈ existingUrlsSet lines ↔ (∃ l ∈ lines, pyStrip l = u) ∧ u ≠ "" := by
  simp [existingUrlsSet, List.mem_filter]

lemma mem_existing_append {lines more : List String} {u : String}
    (h : u ∈ existingUrlsSet lines) : u ∈ existingUrlsSet (lines ++ more) := by
  rw [mem_existingUrlsSet] at h ⊢
  obtain ⟨⟨l, hl, hs⟩, hne⟩ := h
  exact ⟨⟨l, List.mem_append_left _ hl, hs⟩, hne⟩

lemma mem_existing_self {lines : List String} {u : String}
    (h : u ∈ lines) (hs : pyStrip u = u) (hne : u ≠ "") :
    u ∈ existingUrlsSet lines := by
  rw [mem_existingUrlsSet]
  exact ⟨⟨u, h, hs⟩, hne⟩

/-- C5 counterexample: for a result whose URL carries a leading space, the
second text-mode run against the file produced by the first run appends
the URL again and returns 1, not 0 — reading the file strips each line, so
the stripped line no longer matches the raw URL. -/
theorem write_txt_idempotence_counterexample :
    write_results_txt [⟨"s", [" a"], none, none⟩] none true = (some [" a"], 1)
    ∧ (write_results_txt [⟨"s", [" a"], none, none⟩]
        (write_results_txt [⟨"s", [" a"], none, none⟩] none true).1 true).2 = 1 := by
  have hall : allUrlsSet [⟨"s", [" a"], none, none⟩] = {" a"} := by
    simp [allUrlsSet]
  have h1 : write_results_txt [⟨"s", [" a"], none, none⟩] none true =
      (some [" a"], 1) := by
    simp [write_results_txt, existingOf, hall, fileLines, Finset.sort_singleton]
  refine ⟨h1, ?_⟩
  rw [h1]
  have hex : existingUrlsSet [" a"] = {"a"} := by decide
  simp [write_results_txt, existingOf, hall, hex]

/-- C5 (amended): text-mode writing is idempotent for results whose URLs
are non-empty and strip-invariant (as every URL the Matcher can produce
is): the second run against the first run's file state appends nothing and
returns 0. -/
theorem write_txt_idempotent_for_clean_urls
    (results : List ExtractionResult) (file : Option (List String))
    (hclean : ∀ r ∈ results, ∀ u ∈ r.extracted_urls, pyStrip u = u ∧ u ≠ "") :
    write_results_txt results (write_results_txt results file true).1 true =
      ((write_results_txt results file true).1, 0) := by
  have key : ∀ u ∈ allUrlsSet results,
      u ∈ existingOf (write_results_txt results file true).1 := by
    intro u hu
    obtain ⟨r, hr, hur⟩ := mem_allUrlsSet.mp hu
    obtain ⟨hstrip, hne⟩ := hclean r hr u hur
    by_cases hnew : allUrlsSet results \ existingOf file = ∅
    · have hfile1 : (write_results_txt results file true).1 = file := by
        simp [write_results_txt, hnew]
      rw [hfile1]
      exact (Finset.sdiff_eq_empty_iff_subset.mp hnew) hu
    · have hfile1 : (write_results_txt results file true).1 =
          some (fileLines file ++
            (allUrlsSet results \ existingOf file).sort (· ≤ ·)) := by
        simp [write_results_txt, hnew]
      rw [hfile1]
      show u ∈ existingUrlsSet _
      by_cases hmem : u ∈ allUrlsSet results \ existingOf file
      · exact mem_existing_self
          (List.mem_append_right _ ((Finset.mem_sort _).mpr hmem)) hstrip hne
      · have hu0 : u ∈ existingOf file := by
          by_contra hcon
          exact hmem (Finset.mem_sdiff.mpr ⟨hu, hcon⟩)
        cases hf : file with
        | none => rw [hf] at hu0; simp [existingOf] at hu0
        | some lines =>
            rw [hf] at hu0
            exact mem_existing_append (hu0 : u ∈ existingUrlsSet lines)
  have hsub : allUrlsSet results ⊆ existingOf (write_results_txt results file true).1 :=
    fun u hu => key u hu
  obtain ⟨f1, hf1⟩ : ∃ f1, (write_results_txt results file true).1 = f1 := ⟨_, rfl⟩
  rw [hf1] at hsub
  rw [hf1]
  have hempty : allUrlsSet results \ existingOf f1 = ∅ :=
    Finset.sdiff_eq_empty_iff_subset.mpr hsub
  simp [write_results_txt, hempty, hsub]

def c5CleanResults : List ExtractionResult :=
  [⟨"https://s.com/app.js", ["https://x.com/a", "https://x.com/b"], none, some 200⟩]

/-- Witness for the C5 amended theorem at a concrete result list with
clean URLs and an initially absent file. -/
theorem write_txt_idempotent_witness :
    write_results_txt c5CleanResults
        (write_results_txt c5CleanResults none true).1 true =
      ((write_results_txt c5CleanResults none true).1, 0) :=
  write_txt_idempotent_for_clean_urls c5CleanResults none (by decide)

/-! ## Error strings and per-source capture -/

lemma head_append {a : String} (b : String) {c : Char}
    (h : a.data.head? = some c) : (a ++ b).data.head? = some c := by
  rw [String.data_append]
  cases hd : a.data with
  | nil => simp [hd] at h
  | cons x l =>
      rw [hd] at h
      simp at h
      simp [h]

lemma ne_of_head {a b : String} {c d : Char}
    (ha : a.data.head? = some c) (hb : b.data.head? = some d) (h : c ≠ d) :
    a ≠ b := by
  intro heq
  rw [heq, hb] at ha
  exact h (Option.some.inj ha).symm

lemma ne_empty_of_head {a : String} {c : Char}
    (ha : a.data.head? = some c) : a ≠ "" := by
  intro heq
  rw [heq] at ha
  exact Option.noConfusion ha

/-- Every transient failure message starts with a character other than
`E`. -/
lemma failureMsg_head {timeout : Nat} {o : Outcome} (h : isTransient o = true) :
    ∃ c, (failureMsg timeout o).data.head? = some c ∧ c ≠ 'E' := by
  cases o with
  | timeout => exact ⟨'T', head_append _ (head_append _ rfl), by decide⟩
  | sslError m => exact ⟨'S', head_append _ rfl, by decide⟩
  | connError m => exact ⟨'C', head_append _ rfl, by decide⟩
  | reqError m => exact ⟨'R', head_append _ rfl, by decide⟩
  | success body st => simp [isTransient] at h
  | httpError st => simp [isTransient] at h

lemma failureMsg_ne_empty {timeout : Nat} {o : Outcome}
    (h : isTransient o = true) : failureMsg timeout o ≠ "" := by
  obtain ⟨c, hc, _⟩ := @failureMsg_head timeout o h
  exact ne_empty_of_head hc

/-- A transient failure message is never the `Empty response` marker. -/
lemma failureMsg_ne_emptyResponse {timeout : Nat} {o : Outcome}
    (h : isTransient o = true) : failureMsg timeout o ≠ "Empty response" := by
  obtain ⟨c, hc, hne⟩ := @failureMsg_head timeout o h
  exact ne_of_head hc rfl hne

/-- The retry loop never produces an empty error string. -/
lemma fetchGo_error_shape (t : Nat → Outcome) (timeout retries : Nat) :
    ∀ (r a : Nat) (le : Option String) (sl : Nat),
      (∀ s, le = some s → s ≠ "") →
      ∀ s, (fetchGo t timeout retries r a le sl).error = some s → s ≠ "" := by
  intro r
  induction r with
  | zero =>
    intro a le sl hle s hs
    simp [fetchGo] at hs
    exact hle s hs
  | succ n ih =>
    intro a le sl hle s hs
    by_cases htr : isTransient (t a) = true
    · by_cases ha : a < retries
      · rw [fetchGo_step_transient htr ha] at hs
        exact ih (a + 1) _ (sl + 1)
          (fun s' hs' => (Option.some.inj hs') ▸ failureMsg_ne_empty htr) s hs
      · rw [fetchGo_step_last htr ha] at hs
        exact ih (a + 1) _ sl
          (fun s' hs' => (Option.some.inj hs') ▸ failureMsg_ne_empty htr) s hs
    · cases h : t a with
      | success body st => rw [fetchGo_step_success h] at hs; simp at hs
      | httpError st =>
          rw [fetchGo_step_http h] at hs
          simp at hs
          exact hs ▸ ne_empty_of_head (head_append _ rfl)
      | timeout => rw [h] at htr; simp [isTransient] at htr
      | sslError m => rw [h] at htr; simp [isTransient] at htr
      | connError m => rw [h] at htr; simp [isTransient] at htr
      | reqError m => rw [h] at htr; simp [isTransient] at htr

lemma fetch_url_error_ne_empty {t : Nat → Outcome} {url : String}
    {timeout : Nat} {ua : String} {proxy : Option String} {retries : Nat}
    {s : String}
    (h : (fetch_url t url timeout ua proxy retries).error = some s) : s ≠ "" :=
  fetchGo_error_shape t timeout retries (retries + 1) 0 none 0
    (fun _ hs => Option.noConfusion hs) s h

/-- C8: every processed source yields a result carrying that source URL; a
fetch error is recorded as the result's error with an empty URL list and
the fetch's status code; a delivered empty body is recorded as the
distinct `Empty response` error (never a transient-failure message); and
the result of each source in a batch is independent of the other
sources. -/
theorem per_source_error_capture
    (cfg : Config) (u e : String) (t t2 : Nat → Outcome)
    (he : (fetch_url t u cfg.timeout cfg.user_agent cfg.proxy cfg.retries).error
        = some e)
    (hc2 : (fetch_url t2 u cfg.timeout cfg.user_agent cfg.proxy cfg.retries).error
        = none)
    (hb2 : (fetch_url t2 u cfg.timeout cfg.user_agent cfg.proxy cfg.retries).content
        = some "") :
    (∀ (t3 : Nat → Outcome) (v : String) (cfg3 : Config),
       (process_single_url t3 v cfg3).source_url = v)
    ∧ process_single_url t u cfg =
        ⟨u, [], some e,
         (fetch_url t u cfg.timeout cfg.user_agent cfg.proxy cfg.retries).status_code⟩
    ∧ process_single_url t2 u cfg =
        ⟨u, [], some "Empty response",
         (fetch_url t2 u cfg.timeout cfg.user_agent cfg.proxy cfg.retries).status_code⟩
    ∧ (∀ (timeout : Nat) (o : Outcome), isTransient o = true →
         failureMsg timeout o ≠ "Empty response")
    ∧ (∀ (tr : String → Nat → Outcome) (cfg3 : Config)
         (l1 l2 : List String) (v : String),
         run_sequential tr cfg3 (l1 ++ v :: l2) =
           run_sequential tr cfg3 l1 ++
             process_single_url (tr v) v cfg3 :: run_sequential tr cfg3 l2) := by
  refine ⟨?_, ?_, ?_, fun timeout o h => failureMsg_ne_emptyResponse h, ?_⟩
  · intro t3 v cfg3
    simp only [process_single_url]
    split
    · rfl
    · split
      · rfl
      · rfl
  · have hne := fetch_url_error_ne_empty he
    simp [process_single_url, he, pyTruthy, hne]
  · simp [process_single_url, hc2, hb2, pyTruthy]
  · intro tr cfg3 l1 l2 v
    simp [run_sequential]

def cfgW : Config :=
  ⟨none, "extracted_links.txt", some "https://s.com/x.js", false, false, false,
   10, 0, 5, 0, "UA", none, false, "txt", false, false⟩

def tW3 : Nat → Outcome := fun _ => Outcome.timeout

def tW4 : Nat → Outcome := fun _ => Outcome.success "" 200

def tWseq : String → Nat → Outcome := fun _ _ => Outcome.httpError 404

/-- Witness for the C8 theorem: a source whose fetch times out (retries
exhausted), a source with an empty body, and a three-source batch. -/
theorem per_source_error_capture_witness :
    process_single_url tW3 "https://s.com/x.js" cfgW =
      ⟨"https://s.com/x.js", [], some "Timeout after 10s", none⟩
    ∧ process_single_url tW4 "https://s.com/x.js" cfgW =
      ⟨"https://s.com/x.js", [], some "Empty response", some 200⟩
    ∧ failureMsg 10 Outcome.timeout ≠ "Empty response"
    ∧ run_sequential tWseq cfgW
        (["https://a.com/1.js"] ++ "https://b.com/2.js" :: ["https://c.com/3.js"]) =
        run_sequential tWseq cfgW ["https://a.com/1.js"] ++
          process_single_url (tWseq "https://b.com/2.js") "https://b.com/2.js" cfgW ::
            run_sequential tWseq cfgW ["https://c.com/3.js"] := by
  have h := per_source_error_capture cfgW "https://s.com/x.js"
    "Timeout after 10s" tW3 tW4 (by rfl) (by rfl) (by rfl)
  exact ⟨h.2.1, h.2.2.1, h.2.2.2.1 10 Outcome.timeout rfl,
    h.2.2.2.2 tWseq cfgW _ _ _⟩

/-! ## Structured output -/

/-- C9 counterexample: a result carrying `error = some ""` has an error
field present, yet the written document counts it as successful
(`successful = 1`, `failed = 0`) and omits the error key — the document
measures error-presence by Python truthiness, under which an empty error
string counts as no error. -/
theorem structured_counts_counterexample :
    (write_results_json [⟨"s", [], some "", none⟩]).1.successful = 1
    ∧ (write_results_json [⟨"s", [], some "", none⟩]).1.failed = 0
    ∧ (write_results_json [⟨"s", [], some "", none⟩]).1.results =
        [⟨"s", none, 0, [], none⟩] :=
  ⟨rfl, rfl, rfl⟩

/-- C9 (amended): the structured document has `total_sources` the number
of results, `successful`/`failed` the counts of results with falsy/truthy
error (absent-or-empty vs non-empty), `total_urls_found` the
non-deduplicated sum, one entry per result carrying source, status code,
count, URL list and the error text only when truthy, `unique_urls` the
sorted deduplicated global set, `unique_url_count` its size, which is also
the returned value. -/
theorem structured_output_contents (results : List ExtractionResult) :
    (write_results_json results).1.total_sources = results.length
    ∧ (write_results_json results).1.successful =
        (results.filter (fun r => !pyTruthy r.error)).length
    ∧ (write_results_json results).1.failed =
        (results.filter (fun r => pyTruthy r.error)).length
    ∧ (write_results_json results).1.total_urls_found =
        (results.map (fun r => r.extracted_urls.length)).sum
    ∧ (write_results_json results).1.results = results.map entryOf
    ∧ (∀ r : ExtractionResult,
         (entryOf r).source = r.source_url
         ∧ (entryOf r).status_code = r.status_code
         ∧ (entryOf r).urls_found = r.extracted_urls.length
         ∧ (entryOf r).urls = r.extracted_urls
         ∧ (entryOf r).error = (if pyTruthy r.error then r.error else none))
    ∧ (∀ u : String, u ∈ (write_results_json results).1.unique_urls ↔
         ∃ r ∈ results, u ∈ r.extracted_urls)
    ∧ (write_results_json results).1.unique_urls.Sorted (· ≤ ·)
    ∧ (write_results_json results).1.unique_urls.Nodup
    ∧ (write_results_json results).1.unique_url_count =
        (write_results_json results).1.unique_urls.length
    ∧ (write_results_json results).2 =
        (write_results_json results).1.unique_url_count := by
  refine ⟨rfl, rfl, rfl, rfl, rfl, fun r => ⟨rfl, rfl, rfl, rfl, rfl⟩,
    ?_, ?_, ?_, ?_, rfl⟩
  · intro u
    show u ∈ (allUrlsSet results).sort (· ≤ ·) ↔ _
    rw [Finset.mem_sort]
    exact mem_allUrlsSet
  · exact Finset.sort_sorted _ _
  · exact Finset.sort_nodup _ _
  · exact (Finset.length_sort _).symm

/-- Witness for the C9 amended theorem: the unique-URL facts instantiated
on a concrete two-result list with an overlapping URL. -/
theorem structured_output_contents_witness :
    ("https://x.com/a" ∈
        (write_results_json
          [⟨"s1", ["https://x.com/a", "https://x.com/b"], none, some 200⟩,
           ⟨"s2", ["https://x.com/a"], none, some 200⟩]).1.unique_urls ↔
      ∃ r ∈ [⟨"s1", ["https://x.com/a", "https://x.com/b"], none, some 200⟩,
             (⟨"s2", ["https://x.com/a"], none, some 200⟩ : ExtractionResult)],
        "https://x.com/a" ∈ r.extracted_urls)
    ∧ (write_results_json
          [⟨"s1", ["https://x.com/a", "https://x.com/b"], none, some 200⟩,
           ⟨"s2", ["https://x.com/a"], none, some 200⟩]).1.unique_urls.Nodup :=
  ⟨(structured_output_contents _).2.2.2.2.2.2.1 "https://x.com/a",
   (structured_output_contents _).2.2.2.2.2.2.2.2.1⟩

/-- C10: the successful and failed counts partition the results —
`successful + failed = total_sources` in every written document. -/
theorem summary_counts_partition (results : List ExtractionResult) :
    (write_results_json results).1.successful +
      (write_results_json results).1.failed =
      (write_results_json results).1.total_sources := by
  show (results.filter (fun r => !pyTruthy r.error)).length +
      (results.filter (fun r => pyTruthy r.error)).length = results.length
  induction results with
  | nil => rfl
  | cons a l ih =>
    simp only [List.filter_cons]
    by_cases h : pyTruthy a.error
    · simp only [h]
      simp at ih ⊢
      omega
    · simp only [h]
      simp [h] at ih ⊢
      omega

end UrlExtractor
